import Mathlib

/-!
# pkg/proc/native/threads.go

A shallow embedding of `Thread` and its methods (`Continue`, `StepInstruction`,
`Common`, `ThreadID`, `ClearBreakpoint`, `Registers`, `RestoreRegisters`, `PC`).

The methods are thin orchestration over primitives that live in the OS specific
files of the package (`resume`, `singleStep`, `WriteMemory`, `registers`,
`restoreRegisters`).  Those primitives are a parameter of every definition here
(`Backend`); they receive the thread they are called on and the traced target,
and hand both back, so a primitive may change any field of the thread.

Every call site of a primitive appends one entry to a ghost log (`State.calls`)
with the receiver the primitive ran on.  The properties tie the result, the
thread and the target of a method to what its primitive returned, and use the
log for which primitive was called with which arguments.
-/

namespace Delve

/-! ## Go values used by the file -/

/-- A non-nil Go `error` value, by dynamic type.  The file tells errors apart in
one place only, the type assertion `err.(proc.ErrProcessExited)`. -/
inductive GoError where
  /-- The struct value `proc.ErrProcessExited{Pid, Status}`. -/
  | ErrProcessExited (Pid : Int) (Status : Int)
  /-- What `fmt.Errorf` builds from a format without a wrapping verb. -/
  | errorString (s : String)
  /-- Any other dynamic type, with the text its `Error` method returns and,
  when the type implements `fmt.Formatter`, what its `Format` method writes for
  the verb `%s`. -/
  | other (typ : String) (text : String) (format : Option String)
  deriving DecidableEq, Repr

/-- Modelled from the spec: `proc.ErrProcessExited` and its `Error` method are
declared in pkg/proc, outside this file.  The spec makes it a condition that is
recognised by its type and fixes no wording, so the wording below is only a
stand-in; no statement in this development looks inside it. -/
def exitedText (Pid Status : Int) : String :=
  "Process " ++ toString Pid ++ " has exited with status " ++ toString Status

/-- The method `err.Error()`. -/
def GoError.Error : GoError → String
  | .ErrProcessExited Pid Status => exitedText Pid Status
  | .errorString s => s
  | .other _ text _ => text

/-- The type assertion `_, exited := err.(proc.ErrProcessExited)`. -/
def GoError.isProcessExited : GoError → Bool
  | .ErrProcessExited _ _ => true
  | _ => false

/-- What the verb `%s` prints for an error operand: fmt hands the operand to
its `Format` method when the dynamic type implements `fmt.Formatter`, and prints
the result of its `Error` method otherwise. -/
def GoError.verbS : GoError → String
  | .other _ _ (some formatted) => formatted
  | e => e.Error

/-- Whether the dynamic type of the error implements `fmt.Formatter`. -/
def GoError.implementsFormatter : GoError → Bool
  | .other _ _ (some _) => true
  | _ => false

/-- The value `fmt.Errorf(pfx + "%s", x)`, where `arg` is what `%s` prints for
the operand `x`: a string operand as it is, an error operand as `verbS` says. -/
def fmtErrorf (pfx : String) (arg : String) : GoError :=
  .errorString (pfx ++ arg)

/-- Modelled from the spec: `WaitStatus` is declared in the OS specific files.
The spec describes it as a tagged outcome: stopped by a signal, exited with a
code, terminated by a signal, or still running. -/
inductive WaitStatus where
  | stopped (signal : Nat)
  | exited (code : Int)
  | signaled (signal : Nat)
  | running
  deriving DecidableEq, Repr

/-- Modelled from the spec: `proc.Registers` is an interface declared in
pkg/proc.  The spec describes a register set as a mapping from register to
value plus a flag telling whether the floating point subset was populated; the
only method this file calls on it is `PC()`. -/
structure proc.Registers where
  pc : Nat
  general : List (String × Nat)
  floatingPoint : Bool
  deriving DecidableEq, Repr

/-- The method `regs.PC()`, a `uint64`. -/
def proc.Registers.PC (r : proc.Registers) : Nat := r.pc % 2 ^ 64

/-- The struct `Thread`.  `dbp` points at the process, which is the `World`
below; `os` and `common` are carried as opaque values. -/
structure Thread where
  ID : Int
  Status : Option WaitStatus
  singleStepping : Bool
  os : Nat
  common : Nat
  deriving DecidableEq, Repr

/-- Modelled from the spec: the traced target reached through `t.dbp` and the
operating system is outside this file.  What the properties speak about is its
memory (a byte per address), the live registers of the thread, and whether the
target has exited.  `fetched` is a ghost record of the opcode bytes the
processor has executed. -/
structure World where
  mem : Nat → Nat
  regs : proc.Registers
  exited : Bool
  fetched : List Nat

/-- Reading `n` bytes of target memory starting at `addr`. -/
def World.read (w : World) (addr n : Nat) : List Nat :=
  (List.range n).map (fun i => w.mem (addr + i))

/-- Storing `data` into target memory starting at `addr`. -/
def World.store (w : World) (addr : Nat) (data : List Nat) : World :=
  { w with mem := fun a =>
      if addr ≤ a ∧ a < addr + data.length then data.getD (a - addr) 0 else w.mem a }

/-! ## The primitives outside the file -/

/-- What a primitive hands back: its Go results, and the thread and target as
it left them. -/
structure Ret (α : Type) where
  val : α
  thread : Thread
  world : World

/-- The primitives the file calls, all defined elsewhere in the package.  Each
takes the receiver `t` and the target.  `registers` returns the pair
`(proc.Registers, error)`, where the interface value may be nil (`none`). -/
structure Backend where
  resume : Thread → World → Ret (Option GoError)
  singleStep : Thread → World → Ret (Option GoError)
  WriteMemory : Thread → World → Nat → List Nat → Ret (Int × Option GoError)
  registers : Thread → World → Bool → Ret (Option proc.Registers × Option GoError)
  restoreRegisters : Thread → World → proc.Registers → Ret (Option GoError)

/-- Ghost label of a primitive call, with its arguments.  `ReadMemory` is a
primitive of the package as well; no method of this file calls it. -/
inductive Prim where
  | resume
  | singleStep
  | WriteMemory (addr : Nat) (data : List Nat)
  | ReadMemory (addr : Nat) (size : Nat)
  | registers (floatingPoint : Bool)
  | restoreRegisters (savedRegs : proc.Registers)
  deriving DecidableEq, Repr

/-- One entry of the ghost log: which primitive was called, and the fields of
the receiver at the moment of the call. -/
structure Call where
  prim : Prim
  receiver : Thread
  deriving DecidableEq, Repr

/-- The thread, the target, and the ghost log of primitive calls so far. -/
structure State where
  thread : Thread
  world : World
  calls : List Call

/-- A call site: the primitive `f` runs on the thread and the target of `s`;
the call is logged with the receiver it ran on, and the thread and target are
as the primitive left them. -/
def State.call {α : Type} (s : State) (p : Prim) (f : Thread → World → Ret α) : α × State :=
  ((f s.thread s.world).val,
    { thread := (f s.thread s.world).thread,
      world := (f s.thread s.world).world,
      calls := s.calls ++ [⟨p, s.thread⟩] })

/-- The conversion `uintptr(pc)` of a `uint64`; pointers are 64 bits wide on
the targets this package is built for. -/
def uintptr (pc : Nat) : Nat := pc % 2 ^ 64

/-! ## The methods of `Thread` -/

/-- `func (t *Thread) Continue() error`. -/
def Thread.Continue (b : Backend) (s : State) : Option GoError × State :=
  -- return t.resume()
  s.call .resume b.resume

/-- `func (t *Thread) StepInstruction() (err error)`. -/
def Thread.StepInstruction (b : Backend) (s : State) : Option GoError × State :=
  -- t.singleStepping = true
  let s1 : State := { s with thread := { s.thread with singleStepping := true } }
  -- err = t.singleStep()
  let r := s1.call .singleStep b.singleStep
  let result : Option GoError :=
    match r.1 with
    | some err =>
      -- if _, exited := err.(proc.ErrProcessExited); exited { return err }
      if err.isProcessExited then some err
      -- return fmt.Errorf("step failed: %s", err.Error())
      else some (fmtErrorf "step failed: " err.Error)
    | none => none
  -- defer func() { t.singleStepping = false }()
  (result, { r.2 with thread := { r.2.thread with singleStepping := false } })

/-- `func (t *Thread) Common() *proc.CommonThread`. -/
def Thread.Common (s : State) : Nat := s.thread.common

/-- `func (t *Thread) ThreadID() int`. -/
def Thread.ThreadID (s : State) : Int := s.thread.ID

/-- `func (t *Thread) ClearBreakpoint(pc uint64, originalData []byte) error`. -/
def Thread.ClearBreakpoint (b : Backend) (s : State) (pc : Nat) (originalData : List Nat) :
    Option GoError × State :=
  -- if _, err := t.WriteMemory(uintptr(pc), originalData); err != nil
  let r := s.call (.WriteMemory (uintptr pc) originalData)
    (fun t w => b.WriteMemory t w (uintptr pc) originalData)
  match r.1.2 with
  -- return fmt.Errorf("could not clear breakpoint %s", err)
  | some err => (some (fmtErrorf "could not clear breakpoint " err.verbS), r.2)
  | none => (none, r.2)

/-- `func (t *Thread) Registers(floatingPoint bool) (proc.Registers, error)`. -/
def Thread.Registers (b : Backend) (s : State) (floatingPoint : Bool) :
    (Option proc.Registers × Option GoError) × State :=
  -- return registers(t, floatingPoint)
  s.call (.registers floatingPoint) (fun t w => b.registers t w floatingPoint)

/-- `func (t *Thread) RestoreRegisters(savedRegs proc.Registers) error`. -/
def Thread.RestoreRegisters (b : Backend) (s : State) (savedRegs : proc.Registers) :
    Option GoError × State :=
  -- return t.restoreRegisters(savedRegs)
  s.call (.restoreRegisters savedRegs) (fun t w => b.restoreRegisters t w savedRegs)

/-- How a call of `PC` ends: it returns its two results, or the method call on
a nil `proc.Registers` panics. -/
inductive PCOutcome where
  | returned (pc : Nat) (err : Option GoError)
  | nilDereference
  deriving DecidableEq, Repr

/-- `func (t *Thread) PC() (uint64, error)`. -/
def Thread.PC (b : Backend) (s : State) : PCOutcome × State :=
  -- regs, err := t.Registers(false)
  let r := Thread.Registers b s false
  match r.1.2 with
  -- if err != nil { return 0, err }
  | some err => (.returned 0 (some err), r.2)
  | none =>
    match r.1.1 with
    -- return regs.PC(), nil
    | some regs => (.returned regs.PC none, r.2)
    | none => (.nilDereference, r.2)

/-! ## Concrete primitives and states for evaluation -/

/-- Modelled from the spec: the primitives of the execution backend, as the
spec lists them.  `resume` and `singleStep` may yield the process exited
condition; `singleStep` executes exactly one instruction (here every opcode is
one byte long) and leaves the thread stopped; `writeMemory` stores the bytes
and reports how many it wrote; the register primitives read and write the live
registers.  Once the target has exited every primitive reports that. -/
def ptraceBackend : Backend where
  resume t w :=
    if w.exited then ⟨some (.ErrProcessExited t.ID 0), t, w⟩ else ⟨none, t, w⟩
  singleStep t w :=
    if w.exited then ⟨some (.ErrProcessExited t.ID 0), t, w⟩
    else ⟨none, { t with Status := some (.stopped 5) },
      { w with regs := { w.regs with pc := w.regs.pc + 1 },
               fetched := w.fetched ++ [w.mem w.regs.pc] }⟩
  WriteMemory t w addr data :=
    if w.exited then ⟨(0, some (.ErrProcessExited t.ID 0)), t, w⟩
    else ⟨((data.length : Int), none), t, w.store addr data⟩
  registers t w floatingPoint :=
    if w.exited then ⟨(none, some (.ErrProcessExited t.ID 0)), t, w⟩
    else ⟨(some { w.regs with floatingPoint := floatingPoint }, none), t, w⟩
  restoreRegisters t w savedRegs :=
    if w.exited then ⟨some (.ErrProcessExited t.ID 0), t, w⟩
    else ⟨none, t, { w with regs := savedRegs }⟩

/-- A backend whose write primitive stores at most one byte per call and
reports that count without an error; the other primitives are those of
`ptraceBackend`. -/
def shortWriteBackend : Backend :=
  { ptraceBackend with
    WriteMemory := fun t w addr data =>
      ⟨(((data.take 1).length : Int), none), t, w.store addr (data.take 1)⟩ }

/-- A backend all of whose primitives fail with the error `e` and change
nothing. -/
def failingBackend (e : GoError) : Backend where
  resume t w := ⟨some e, t, w⟩
  singleStep t w := ⟨some e, t, w⟩
  WriteMemory t w _ _ := ⟨(0, some e), t, w⟩
  registers t w _ := ⟨(none, some e), t, w⟩
  restoreRegisters t w _ := ⟨some e, t, w⟩

/-- The write primitive of `b` reports how many leading bytes of `data` it
stored at `addr`: whenever it returns no error, reading that many bytes back
yields that prefix of `data`. -/
def Backend.writeCountsStoredBytes (b : Backend) : Prop :=
  ∀ (t : Thread) (w : World) (addr : Nat) (data : List Nat),
    (b.WriteMemory t w addr data).val.2 = none →
    (b.WriteMemory t w addr data).world.read addr (b.WriteMemory t w addr data).val.1.toNat
      = data.take (b.WriteMemory t w addr data).val.1.toNat

/-- The address of the breakpoint in the scenarios. -/
def bpAddr : Nat := 0x401000

/-- The trap opcode that a breakpoint writes over the original bytes. -/
def trapOpcode : Nat := 0xCC

/-- The bytes the breakpoint at `bpAddr` replaced. -/
def bpOriginal : List Nat := [0x90, 0x90]

/-- A stopped thread. -/
def thread0 : Thread :=
  { ID := 7, Status := some (.stopped 5), singleStepping := false, os := 0, common := 0 }

/-- A live target: the trap is installed over the two bytes at `bpAddr` that
`bpOriginal` was saved from, the memory around it is filled with `0x90`, and
the program counter is at `bpAddr`. -/
def worldAtBreakpoint : World :=
  { mem := fun a => if bpAddr ≤ a ∧ a < bpAddr + 2 then trapOpcode else 0x90,
    regs := { pc := bpAddr, general := [], floatingPoint := false },
    exited := false,
    fetched := [] }

/-- The thread stopped on the breakpoint at `bpAddr`, nothing called yet. -/
def stateAtBreakpoint : State :=
  { thread := thread0, world := worldAtBreakpoint, calls := [] }

/-- The same thread after the target has exited; its last wait status records
the exit. -/
def stateExited : State :=
  { thread := { thread0 with Status := some (.exited 0), singleStepping := true },
    world := { worldAtBreakpoint with exited := true },
    calls := [] }

/-- An input/output error of the operating system. -/
def eio : GoError := .other "syscall.Errno" "input/output error" none

/-- An error whose type implements `fmt.Formatter`: its `Error` method returns
"write refused" and its `Format` method writes "EPERM(1)". -/
def eperm : GoError := .other "permError" "write refused" (some "EPERM(1)")

/-! ## Properties -/

/-- Reading back right after a store yields the stored bytes. -/
theorem World.read_store (w : World) (addr : Nat) (data : List Nat) :
    (w.store addr data).read addr data.length = data := by
  apply List.ext_getElem
  · simp [World.read]
  · intro i h1 h2
    simp [World.read] at h1
    simp [World.read, World.store, h1, List.getD_eq_getElem?_getD, List.getElem?_eq_getElem h2]

/-- On a 64 bit address the conversion `uintptr(pc)` changes nothing. -/
theorem uintptr_eq {pc : Nat} (h : pc < 2 ^ 64) : uintptr pc = pc :=
  Nat.mod_eq_of_lt h

/-- C1: whatever the flag was before the call and whatever `singleStep` answers,
`singleStepping` is false when `StepInstruction` returns. -/
theorem StepInstruction_clears_flag (b : Backend) (s : State) :
    (Thread.StepInstruction b s).2.thread.singleStepping = false := by
  rfl

/-- C2: when `singleStep` fails with a `proc.ErrProcessExited` value,
`StepInstruction` returns that very value, not a "step failed" error. -/
theorem StepInstruction_exited_unchanged (b : Backend) (s : State) (Pid Status : Int)
    (h : (b.singleStep { s.thread with singleStepping := true } s.world).val
      = some (.ErrProcessExited Pid Status)) :
    (Thread.StepInstruction b s).1 = some (.ErrProcessExited Pid Status) := by
  simp [Thread.StepInstruction, State.call, h, GoError.isProcessExited]

/-- Witness for C2: the target of `stateExited` has exited, `singleStep` reports
it, and so does `StepInstruction`. -/
theorem StepInstruction_exited_unchanged_witness :
    (Thread.StepInstruction ptraceBackend stateExited).1 = some (.ErrProcessExited 7 0) :=
  StepInstruction_exited_unchanged ptraceBackend stateExited 7 0 rfl

/-- C3: `StepInstruction` returns no error exactly when `singleStep` returns
none; and when `singleStep` fails with an error `e` that is not a
`proc.ErrProcessExited`, the result is the error built by `fmt.Errorf`, whose
text is "step failed: " followed by the text of `e`. -/
theorem StepInstruction_error_iff_and_wrap (b : Backend) (s : State) :
    ((Thread.StepInstruction b s).1 = none
      ↔ (b.singleStep { s.thread with singleStepping := true } s.world).val = none)
    ∧ ∀ e : GoError,
        (b.singleStep { s.thread with singleStepping := true } s.world).val = some e →
        e.isProcessExited = false →
        (Thread.StepInstruction b s).1 = some (.errorString ("step failed: " ++ e.Error))
        ∧ ∃ err, (Thread.StepInstruction b s).1 = some err
            ∧ err.Error = "step failed: " ++ e.Error ∧ err.isProcessExited = false := by
  constructor
  · cases h : (b.singleStep { s.thread with singleStepping := true } s.world).val with
    | none => simp [Thread.StepInstruction, State.call, h]
    | some e =>
      by_cases he : e.isProcessExited = true <;>
        simp [Thread.StepInstruction, State.call, h, he]
  · intro e h he
    have hres : (Thread.StepInstruction b s).1
        = some (.errorString ("step failed: " ++ e.Error)) := by
      simp [Thread.StepInstruction, State.call, h, he, fmtErrorf]
    exact ⟨hres, _, hres, rfl, rfl⟩

/-- Witness for C3: `singleStep` fails with an input/output error and
`StepInstruction` answers "step failed: input/output error". -/
theorem StepInstruction_error_iff_and_wrap_witness :
    (Thread.StepInstruction (failingBackend eio) stateAtBreakpoint).1
      = some (.errorString "step failed: input/output error") :=
  ((StepInstruction_error_iff_and_wrap (failingBackend eio) stateAtBreakpoint).2
    eio rfl rfl).1

/-- The method `PC` leaves the state as its call of `Registers(false)` left
it, on each of its three ways out. -/
theorem PC_state (b : Backend) (s : State) :
    (Thread.PC b s).2 = (Thread.Registers b s false).2 := by
  unfold Thread.PC
  dsimp only
  split
  · rfl
  · split <;> rfl

/-- C6: when `Registers(false)` gives a register set `r` and no error, `PC`
returns `r.PC()` and no error; when it gives an error `e`, `PC` returns 0 and
`e` itself.  The one primitive call `PC` makes is `registers` with the floating
point flag off, and `PC` leaves the state as that call left it. -/
theorem PC_eq_Registers_false (b : Backend) (s : State) :
    (∀ r : proc.Registers, (Thread.Registers b s false).1 = (some r, none) →
        (Thread.PC b s).1 = .returned r.PC none)
    ∧ (∀ (regs : Option proc.Registers) (e : GoError),
        (Thread.Registers b s false).1 = (regs, some e) →
        (Thread.PC b s).1 = .returned 0 (some e))
    ∧ (Thread.PC b s).2 = (Thread.Registers b s false).2
    ∧ (Thread.PC b s).2.calls = s.calls ++ [⟨.registers false, s.thread⟩] := by
  refine ⟨?_, ?_, ?_, ?_⟩
  · intro r h
    simp [Thread.PC, h]
  · intro regs e h
    simp [Thread.PC, h]
  · exact PC_state b s
  · rw [PC_state b s]
    rfl

/-- Witness for C6, success: the live program counter is `bpAddr`. -/
theorem PC_eq_Registers_false_witness :
    (Thread.PC ptraceBackend stateAtBreakpoint).1 = .returned bpAddr none :=
  (PC_eq_Registers_false ptraceBackend stateAtBreakpoint).1
    { pc := bpAddr, general := [], floatingPoint := false } rfl

/-- For an error whose type does not implement `fmt.Formatter`, the verb `%s`
prints the text of its `Error` method. -/
theorem verbS_eq_Error (e : GoError) (h : e.implementsFormatter = false) :
    e.verbS = e.Error := by
  cases e with
  | ErrProcessExited Pid Status => rfl
  | errorString t => rfl
  | other typ text format =>
    cases format with
    | none => rfl
    | some f => simp [GoError.implementsFormatter] at h

/-- C7, as stated, fails: the write fails with an error whose `Error` text is
"write refused" and whose type implements `fmt.Formatter`; `ClearBreakpoint`
hands the error itself to `%s`, so the text after "could not clear breakpoint "
is what `Format` writes, "EPERM(1)", and not the message of the error. -/
theorem ClearBreakpoint_message_of_formatter_error :
    ((failingBackend eperm).WriteMemory stateAtBreakpoint.thread stateAtBreakpoint.world
        bpAddr bpOriginal).val.2 = some eperm
    ∧ eperm.Error = "write refused"
    ∧ (Thread.ClearBreakpoint (failingBackend eperm) stateAtBreakpoint bpAddr bpOriginal).1
      = some (.errorString "could not clear breakpoint EPERM(1)")
    ∧ (Thread.ClearBreakpoint (failingBackend eperm) stateAtBreakpoint bpAddr bpOriginal).1.map
        GoError.Error ≠ some ("could not clear breakpoint " ++ eperm.Error) := by
  refine ⟨rfl, rfl, rfl, ?_⟩
  decide

/-- C7, amended: `ClearBreakpoint(pc, originalData)` fails exactly when the
write of `originalData` at `pc` fails; the error it then returns is the one
built by `fmt.Errorf`, with the text "could not clear breakpoint " followed by
what `%s` prints for the write error, which is the message of that error
whenever its type does not implement `fmt.Formatter`.  The thread and the target
are left as that one write left them, the write is the only primitive called,
and the result is the same whatever the target holds, at `pc` or elsewhere, as
long as the write answers the same. -/
theorem ClearBreakpoint_fails_iff_write_fails (b : Backend) (s : State) (pc : Nat)
    (originalData : List Nat) (hpc : pc < 2 ^ 64) :
    ((Thread.ClearBreakpoint b s pc originalData).1 ≠ none
      ↔ (b.WriteMemory s.thread s.world pc originalData).val.2 ≠ none)
    ∧ (∀ e : GoError, (b.WriteMemory s.thread s.world pc originalData).val.2 = some e →
        (Thread.ClearBreakpoint b s pc originalData).1
          = some (.errorString ("could not clear breakpoint " ++ e.verbS))
        ∧ (∃ err, (Thread.ClearBreakpoint b s pc originalData).1 = some err
            ∧ err.Error = "could not clear breakpoint " ++ e.verbS)
        ∧ (e.implementsFormatter = false →
            ∃ err, (Thread.ClearBreakpoint b s pc originalData).1 = some err
              ∧ err.Error = "could not clear breakpoint " ++ e.Error))
    ∧ (Thread.ClearBreakpoint b s pc originalData).2.thread
        = (b.WriteMemory s.thread s.world pc originalData).thread
    ∧ (Thread.ClearBreakpoint b s pc originalData).2.world
        = (b.WriteMemory s.thread s.world pc originalData).world
    ∧ (Thread.ClearBreakpoint b s pc originalData).2.calls
        = s.calls ++ [⟨.WriteMemory pc originalData, s.thread⟩]
    ∧ (∀ w : World,
        (b.WriteMemory s.thread w pc originalData).val.2
          = (b.WriteMemory s.thread s.world pc originalData).val.2 →
        (Thread.ClearBreakpoint b { s with world := w } pc originalData).1
          = (Thread.ClearBreakpoint b s pc originalData).1) := by
  have hres : ∀ s0 : State, (Thread.ClearBreakpoint b s0 pc originalData).1
      = (b.WriteMemory s0.thread s0.world pc originalData).val.2.map
          (fun e => .errorString ("could not clear breakpoint " ++ e.verbS)) := by
    intro s0
    unfold Thread.ClearBreakpoint
    rw [uintptr_eq hpc]
    cases h : (b.WriteMemory s0.thread s0.world pc originalData).val.2 <;>
      simp [State.call, h, fmtErrorf]
  have hstate : (Thread.ClearBreakpoint b s pc originalData).2
      = { thread := (b.WriteMemory s.thread s.world pc originalData).thread,
          world := (b.WriteMemory s.thread s.world pc originalData).world,
          calls := s.calls ++ [⟨.WriteMemory pc originalData, s.thread⟩] } := by
    unfold Thread.ClearBreakpoint
    rw [uintptr_eq hpc]
    cases h : (b.WriteMemory s.thread s.world pc originalData).val.2 <;>
      simp [State.call, h]
  refine ⟨?_, ?_, ?_, ?_, ?_, ?_⟩
  · rw [hres s]
    cases (b.WriteMemory s.thread s.world pc originalData).val.2 <;> simp
  · intro e h
    have he : (Thread.ClearBreakpoint b s pc originalData).1
        = some (.errorString ("could not clear breakpoint " ++ e.verbS)) := by
      rw [hres s, h]
      rfl
    refine ⟨he, ⟨_, he, rfl⟩, fun hf => ⟨_, he, ?_⟩⟩
    rw [← verbS_eq_Error e hf]
    rfl
  · rw [hstate]
  · rw [hstate]
  · rw [hstate]
  · intro w hw
    rw [hres s, hres { s with world := w }]
    exact congrArg _ hw

/-- Witness for the amended C7: the write at `bpAddr` fails with an input/output
error and `ClearBreakpoint` answers "could not clear breakpoint input/output
error". -/
theorem ClearBreakpoint_fails_iff_write_fails_witness :
    bpAddr < 2 ^ 64
    ∧ (Thread.ClearBreakpoint (failingBackend eio) stateAtBreakpoint bpAddr bpOriginal).1
      = some (.errorString "could not clear breakpoint input/output error")
    ∧ ∃ err, (Thread.ClearBreakpoint (failingBackend eio) stateAtBreakpoint bpAddr
          bpOriginal).1 = some err
        ∧ err.Error = "could not clear breakpoint " ++ eio.Error :=
  ⟨by decide,
    ((ClearBreakpoint_fails_iff_write_fails (failingBackend eio) stateAtBreakpoint bpAddr
      bpOriginal (by decide)).2.1 eio rfl).1,
    ((ClearBreakpoint_fails_iff_write_fails (failingBackend eio) stateAtBreakpoint bpAddr
      bpOriginal (by decide)).2.1 eio rfl).2.2 rfl⟩

/-- C9: `Continue` returns what `resume` returns, so a process exited condition
from `resume` comes back as it is; `Continue` assigns no field of the thread,
the thread after the call is the one `resume` left, and where `resume` leaves
the thread alone its wait status, ID and stepping flag are those from before the
call. -/
theorem Continue_returns_resume (b : Backend) (s : State) :
    (Thread.Continue b s).1 = (b.resume s.thread s.world).val
    ∧ (∀ Pid Status : Int,
        (b.resume s.thread s.world).val = some (.ErrProcessExited Pid Status) →
        (Thread.Continue b s).1 = some (.ErrProcessExited Pid Status))
    ∧ (Thread.Continue b s).2.thread = (b.resume s.thread s.world).thread
    ∧ ((b.resume s.thread s.world).thread = s.thread →
        (Thread.Continue b s).2.thread.Status = s.thread.Status
        ∧ (Thread.Continue b s).2.thread.ID = s.thread.ID
        ∧ (Thread.Continue b s).2.thread.singleStepping = s.thread.singleStepping)
    ∧ (Thread.Continue b s).2.calls = s.calls ++ [⟨.resume, s.thread⟩] := by
  refine ⟨rfl, fun _ _ h => h, rfl, fun h => ?_, rfl⟩
  have ht : (Thread.Continue b s).2.thread = s.thread := h
  rw [ht]
  exact ⟨rfl, rfl, rfl⟩

/-- Witness for C9: on the exited target `Continue` returns the process exited
condition and the wait status still records the exit. -/
theorem Continue_returns_resume_witness :
    (Thread.Continue ptraceBackend stateExited).1 = some (.ErrProcessExited 7 0)
    ∧ (Thread.Continue ptraceBackend stateExited).2.thread.Status = some (.exited 0) :=
  ⟨(Continue_returns_resume ptraceBackend stateExited).2.1 7 0 rfl,
    ((Continue_returns_resume ptraceBackend stateExited).2.2.2.1 rfl).1⟩

/-- C10: one call of `StepInstruction` runs `singleStep` once, on the thread
with `singleStepping` set, whatever the flag was before: the target after the
call is the one that single run left, the thread is the one it left with the
flag reset, the result is computed from its answer (nothing is run again after
a failure), and the log of primitive calls grows by exactly that one call. -/
theorem StepInstruction_calls_singleStep_once (b : Backend) (s : State) :
    (Thread.StepInstruction b s).2.world
      = (b.singleStep { s.thread with singleStepping := true } s.world).world
    ∧ (Thread.StepInstruction b s).2.thread
      = { (b.singleStep { s.thread with singleStepping := true } s.world).thread with
          singleStepping := false }
    ∧ (Thread.StepInstruction b s).1
      = (b.singleStep { s.thread with singleStepping := true } s.world).val.map
          (fun e => if e.isProcessExited then e
            else .errorString ("step failed: " ++ e.Error))
    ∧ (Thread.StepInstruction b s).2.calls
      = s.calls ++ [⟨.singleStep, { s.thread with singleStepping := true }⟩]
    ∧ ((Thread.StepInstruction b s).2.calls.drop s.calls.length).map Call.prim
      = [Prim.singleStep]
    ∧ ((Thread.StepInstruction b s).2.calls.drop s.calls.length).map
        (fun c => c.receiver.singleStepping) = [true] := by
  have h : (Thread.StepInstruction b s).2.calls
      = s.calls ++ [⟨.singleStep, { s.thread with singleStepping := true }⟩] := rfl
  refine ⟨rfl, rfl, ?_, h, ?_, ?_⟩
  · cases hv : (b.singleStep { s.thread with singleStepping := true } s.world).val with
    | none => simp [Thread.StepInstruction, State.call, hv]
    | some e =>
      by_cases he : e.isProcessExited = true <;>
        simp [Thread.StepInstruction, State.call, hv, he, fmtErrorf]
  · rw [h, List.drop_left]
    rfl
  · rw [h, List.drop_left]
    rfl

/-- The write primitive of `ptraceBackend` reports the number of bytes it
stored. -/
theorem ptraceBackend_writeCountsStoredBytes : ptraceBackend.writeCountsStoredBytes := by
  intro t w addr data _
  by_cases h : w.exited = true
  · simp [ptraceBackend, h, World.read]
  · simp [ptraceBackend, h, World.read_store]

/-- The write primitive of `shortWriteBackend` reports the number of bytes it
stored as well: one byte at most. -/
theorem shortWriteBackend_writeCountsStoredBytes :
    shortWriteBackend.writeCountsStoredBytes := by
  intro t w addr data _
  have h := World.read_store w addr (data.take 1)
  cases data with
  | nil => simp [shortWriteBackend, World.read]
  | cons x xs => simpa [shortWriteBackend] using h

/-- C4, as stated, fails: the write primitive stores one byte of the two,
reports the count 1 and no error; `ClearBreakpoint` drops the count and returns
no error, and the two bytes at the address are not the original ones. -/
theorem ClearBreakpoint_short_write_not_restored :
    shortWriteBackend.writeCountsStoredBytes
    ∧ (shortWriteBackend.WriteMemory stateAtBreakpoint.thread stateAtBreakpoint.world
        bpAddr bpOriginal).val = (1, none)
    ∧ (1 : Int) < bpOriginal.length
    ∧ (Thread.ClearBreakpoint shortWriteBackend stateAtBreakpoint bpAddr bpOriginal).1 = none
    ∧ (Thread.ClearBreakpoint shortWriteBackend stateAtBreakpoint bpAddr bpOriginal).2.world.read
        bpAddr bpOriginal.length = [0x90, 0xCC]
    ∧ (Thread.ClearBreakpoint shortWriteBackend stateAtBreakpoint bpAddr bpOriginal).2.world.read
        bpAddr bpOriginal.length ≠ bpOriginal := by
  refine ⟨shortWriteBackend_writeCountsStoredBytes, rfl, by decide, rfl, ?_, ?_⟩
  · decide
  · decide

/-- C4, amended: with a write primitive that reports how many leading bytes it
stored, when `ClearBreakpoint(pc, originalData)` returns no error and the
primitive reported all `len(originalData)` bytes written, reading that many
bytes at `pc` yields `originalData`. -/
theorem ClearBreakpoint_restores_when_fully_written (b : Backend) (s : State) (pc : Nat)
    (originalData : List Nat) (hpc : pc < 2 ^ 64) (hb : b.writeCountsStoredBytes)
    (hok : (Thread.ClearBreakpoint b s pc originalData).1 = none)
    (hall : (b.WriteMemory s.thread s.world pc originalData).val.1 = originalData.length) :
    (Thread.ClearBreakpoint b s pc originalData).2.world.read pc originalData.length
      = originalData := by
  unfold Thread.ClearBreakpoint at hok ⊢
  rw [uintptr_eq hpc] at hok ⊢
  cases hw : (b.WriteMemory s.thread s.world pc originalData).val.2 with
  | some e => simp [State.call, hw] at hok
  | none =>
    have h := hb s.thread s.world pc originalData hw
    rw [hall] at h
    simpa [State.call, hw] using h

/-- Witness for the amended C4: on the live target the two original bytes are
written back at `bpAddr` and read back from there. -/
theorem ClearBreakpoint_restores_when_fully_written_witness :
    (Thread.ClearBreakpoint ptraceBackend stateAtBreakpoint bpAddr bpOriginal).1 = none
    ∧ (Thread.ClearBreakpoint ptraceBackend stateAtBreakpoint bpAddr bpOriginal).2.world.read
        bpAddr bpOriginal.length = bpOriginal :=
  ⟨rfl, ClearBreakpoint_restores_when_fully_written ptraceBackend stateAtBreakpoint bpAddr
    bpOriginal (by decide) ptraceBackend_writeCountsStoredBytes rfl rfl⟩

/-- The operations that hand the result of their primitive on (`Continue`,
`Registers`, `RestoreRegisters`, `PC`), and `StepInstruction` with its explicit
test, all return a `proc.ErrProcessExited` from the primitive as it is. -/
theorem exited_passes_through (b : Backend) (s : State) (Pid Status : Int) :
    ((b.resume s.thread s.world).val = some (.ErrProcessExited Pid Status) →
      (Thread.Continue b s).1 = some (.ErrProcessExited Pid Status))
    ∧ ((b.singleStep { s.thread with singleStepping := true } s.world).val
        = some (.ErrProcessExited Pid Status) →
      (Thread.StepInstruction b s).1 = some (.ErrProcessExited Pid Status))
    ∧ (∀ (fp : Bool) (regs : Option proc.Registers),
        (b.registers s.thread s.world fp).val = (regs, some (.ErrProcessExited Pid Status)) →
        (Thread.Registers b s fp).1.2 = some (.ErrProcessExited Pid Status))
    ∧ (∀ saved : proc.Registers,
        (b.restoreRegisters s.thread s.world saved).val = some (.ErrProcessExited Pid Status) →
        (Thread.RestoreRegisters b s saved).1 = some (.ErrProcessExited Pid Status))
    ∧ (∀ regs : Option proc.Registers,
        (b.registers s.thread s.world false).val = (regs, some (.ErrProcessExited Pid Status)) →
        (Thread.PC b s).1 = .returned 0 (some (.ErrProcessExited Pid Status))) := by
  refine ⟨fun h => h, fun h => ?_, fun fp regs h => ?_, fun saved h => h, fun regs h => ?_⟩
  · simp [Thread.StepInstruction, State.call, h, GoError.isProcessExited]
  · simp [Thread.Registers, State.call, h]
  · simp [Thread.PC, Thread.Registers, State.call, h]

/-- C5 at the failing input: the target has exited, `WriteMemory` fails with the
value `proc.ErrProcessExited`, and `ClearBreakpoint` returns an error built by
`fmt.Errorf` that holds only the text of it: the type assertion for
`proc.ErrProcessExited` no longer succeeds on the result. -/
theorem ClearBreakpoint_wraps_process_exited :
    (ptraceBackend.WriteMemory stateExited.thread stateExited.world bpAddr bpOriginal).val.2
      = some (.ErrProcessExited 7 0)
    ∧ (Thread.ClearBreakpoint ptraceBackend stateExited bpAddr bpOriginal).1
      = some (.errorString ("could not clear breakpoint " ++ exitedText 7 0))
    ∧ (Thread.ClearBreakpoint ptraceBackend stateExited bpAddr bpOriginal).1
      ≠ some (.ErrProcessExited 7 0)
    ∧ (Thread.ClearBreakpoint ptraceBackend stateExited bpAddr bpOriginal).1.map
        GoError.isProcessExited = some false := by
  refine ⟨rfl, rfl, ?_, rfl⟩
  intro h
  have h2 : (Thread.ClearBreakpoint ptraceBackend stateExited bpAddr bpOriginal).1
      = some (.errorString ("could not clear breakpoint " ++ exitedText 7 0)) := rfl
  rw [h2] at h
  cases h

/-- C8 at the failing input: the thread is stopped at `bpAddr`, where the trap
is installed.  `StepInstruction` succeeds, its one primitive call is
`singleStep` (no `WriteMemory`, so the original bytes are never put back and the
trap is never written again by it), the opcode the processor executed is the
trap and not the original `0x90`, and the memory at `bpAddr` is what it was. -/
theorem StepInstruction_at_breakpoint_steps_the_trap :
    stateAtBreakpoint.world.regs.pc = bpAddr
    ∧ stateAtBreakpoint.world.read bpAddr 2 = [trapOpcode, trapOpcode]
    ∧ (Thread.StepInstruction ptraceBackend stateAtBreakpoint).1 = none
    ∧ (Thread.StepInstruction ptraceBackend stateAtBreakpoint).2.calls
      = [⟨.singleStep, { thread0 with singleStepping := true }⟩]
    ∧ (Thread.StepInstruction ptraceBackend stateAtBreakpoint).2.world.fetched = [trapOpcode]
    ∧ (Thread.StepInstruction ptraceBackend stateAtBreakpoint).2.world.fetched
      ≠ [bpOriginal.headD 0]
    ∧ (Thread.StepInstruction ptraceBackend stateAtBreakpoint).2.world.read bpAddr 2
      = stateAtBreakpoint.world.read bpAddr 2 := by
  refine ⟨rfl, by decide, rfl, rfl, ?_, ?_, ?_⟩
  · decide
  · decide
  · decide

end Delve
